import Mathlib

/-!
Shallow embedding of the lua51-vm repository (a register-based interpreter
for precompiled Lua 5.1 bytecode) and formal settlement of the frozen
claims about it.

Modelling conventions, used throughout:

* Rust `Rc<RefCell<LuaValue>>` cells are modelled by a heap
  (`Heap := List LuaVal`) addressed by `Nat` cell ids; cloning an `Rc`
  shares the cell id, `Rc::new` is `alloc` (append).
* `f64` (`LuaNumber`) is modelled by exact fractions (`LuaNum`).  None
  of the claims settled here depends on rounding, NaN or signed zero;
  the claims exercise small-integer arithmetic and comparisons, on which
  the exact model agrees bit-for-bit with IEEE doubles.
* Rust panics (out-of-bounds `Vec` indexing, `usize` underflow,
  unreachable arms) are the distinguished outcome `crash`.
* Pointer values printed by `tostring` (`{:?}` on `Rc::as_ptr`) are
  modelled by the heap cell id of the printed cell; the addresses are
  arbitrary in Rust and no claim depends on their text.
-/

/-- Model of `LuaNumber` (`src/types/number.rs`): a wrapped `f64`,
modelled as an exact (not necessarily reduced) fraction — see the header
comment.  Every value the model constructs has a positive
denominator. -/
structure LuaNum where
  num : Int
  den : Nat
deriving Repr, DecidableEq

/-- The double for an integer. -/
def LuaNum.ofInt (n : Int) : LuaNum := ⟨n, 1⟩

/-- The double for a natural number (widening casts in the source, such
as `s.len() as f64`). -/
def LuaNum.ofNat (n : Nat) : LuaNum := ⟨(n : Int), 1⟩

instance (n : Nat) : OfNat LuaNum n := ⟨LuaNum.ofNat n⟩

/-- IEEE `==` on the modelled (finite, exact) doubles: equality of the
represented rational values. -/
def LuaNum.beq (a b : LuaNum) : Bool := a.num * (b.den : Int) == b.num * (a.den : Int)

/-- `f64::total_cmp` on the modelled doubles (no NaN, no negative zero):
the order of the represented rational values. -/
def LuaNum.cmp (a b : LuaNum) : Ordering :=
  compare (a.num * (b.den : Int)) (b.num * (a.den : Int))

/-- `f64` addition, exact on the modelled fragment. -/
def LuaNum.add (a b : LuaNum) : LuaNum := ⟨a.num * b.den + b.num * a.den, a.den * b.den⟩

/-- `f64` subtraction, exact on the modelled fragment. -/
def LuaNum.sub (a b : LuaNum) : LuaNum := ⟨a.num * b.den - b.num * a.den, a.den * b.den⟩

/-- `f64` multiplication, exact on the modelled fragment. -/
def LuaNum.mul (a b : LuaNum) : LuaNum := ⟨a.num * b.num, a.den * b.den⟩

/-- `f64` negation. -/
def LuaNum.neg (a : LuaNum) : LuaNum := ⟨-a.num, a.den⟩

/-- Model of `LuaValue` (`src/types/value.rs`).  `Table` carries the
`BTreeMap` contents as the ordered list of (key cell, value cell) pairs;
`Function` carries the `LuaFunction`'s unique 64-bit `id` (the handler is
looked up in the VM state's function store, see `FnImpl`). -/
inductive LuaVal where
  | Number (n : LuaNum)
  | Str (s : String)
  | Boolean (b : Bool)
  | Table (entries : List (Nat × Nat))
  | Function (id : Nat)
  | Nil
deriving Repr, DecidableEq

/-- Heap of shared mutable cells: the model of `Rc<RefCell<LuaValue>>`
allocations.  A cell id is an index into this list. -/
abbrev Heap := List LuaVal

/-- Dereference a cell (`Rc`/`RefCell` borrow); cell ids produced by the
model are always in range, so the default is never observed. -/
def heapGet (h : Heap) (c : Nat) : LuaVal := h.getD c .Nil

/-- Allocate a fresh cell (`Rc::new(RefCell::new(v))`, i.e. `.into()`),
returning the grown heap and the new cell id. -/
def heapAlloc (h : Heap) (v : LuaVal) : Heap × Nat := (h ++ [v], h.length)

/-- Model of `LuaError` (`src/types/mod.rs`).  `ParseFloatError`'s
underlying error payload is dropped. -/
inductive LuaError where
  | UnsupportedArithmeticOperation
  | AttemptedNullCall
  | AttemptedTableCall
  | AttemptedBooleanConcatenation
  | AttemptedFunctionConcatenation
  | AttemptedTableConcatenation
  | AttemptedNilConcatenation
  | AttemptedIndexOfNonTable
  | AttemptedNotOperationOnNonBoolean
  | UnsupportedLengthOperation
  | ParseFloatError
  | ConstantNotFound (idx : Nat)
  | UpValueNotFound (idx : Nat)
  | AttemptedCallOnUnsupportedType
  | ExpectedArgument
  | ExpectedNumber
  | ExpectedString
  | ExpectedBoolean
  | ExpectedTable
  | ExpectedFunction
  | TriggeredByUser (msg : String) (level : Option LuaNum)
deriving Repr, DecidableEq

/-! ## Derived equality and total order on values

`LuaValue` derives `PartialEq`/`Eq`/`PartialOrd`/`Ord` in the source.
The derived comparisons on the `Table` variant go through the `BTreeMap`
instances, which compare the `Rc<RefCell<_>>` keys and values by
dereferencing the cells and comparing the contained values recursively.
Cells can form cycles, so the model takes a recursion-depth fuel
(`none` = the comparison does not finish, which in Rust is an
unbounded recursion). -/

/-- Rank of each variant in the declaration order of the `LuaValue` enum
(`Number`, `String`, `Boolean`, `Table`, `Function`, `Nil`): the derived
comparisons order values of different variants by this rank. -/
def variantRank : LuaVal → Nat
  | .Number _ => 0
  | .Str _ => 1
  | .Boolean _ => 2
  | .Table _ => 3
  | .Function _ => 4
  | .Nil => 5

/-- Pairwise equality of two `BTreeMap` entry sequences, dereferencing
the key and value cells with the supplied value comparison. -/
def entryListEq (f : LuaVal → LuaVal → Option Bool) (h : Heap) :
    List (Nat × Nat) → List (Nat × Nat) → Option Bool
  | [], [] => some true
  | (k1, v1) :: t1, (k2, v2) :: t2 =>
    match f (heapGet h k1) (heapGet h k2) with
    | none => none
    | some false => some false
    | some true =>
      match f (heapGet h v1) (heapGet h v2) with
      | none => none
      | some false => some false
      | some true => entryListEq f h t1 t2
  | _, _ => some false

/-- Model of the derived `PartialEq` on `LuaValue`: structural on
`Number`/`String`/`Boolean`/`Nil`; by the unique `id` on `Function`
(`impl PartialEq for LuaFunction`, `src/types/function.rs`); on `Table`
it is the `BTreeMap` equality, i.e. equal length and pairwise-equal
entries compared through the shared cells. -/
def valEq (h : Heap) : Nat → LuaVal → LuaVal → Option Bool
  | 0, _, _ => none
  | fuel + 1, a, b =>
    match a, b with
    | .Number x, .Number y => some (x.beq y)
    | .Str s, .Str t => some (s == t)
    | .Boolean x, .Boolean y => some (x == y)
    | .Nil, .Nil => some true
    | .Function i, .Function j => some (i == j)
    | .Table e1, .Table e2 =>
      if e1.length == e2.length then entryListEq (fun x y => valEq h fuel x y) h e1 e2
      else some false
    | _, _ => some false

/-- Lexicographic comparison of two `BTreeMap` entry sequences (the
`BTreeMap` `Ord`), dereferencing cells with the supplied comparison. -/
def entryListCmp (f : LuaVal → LuaVal → Option Ordering) (h : Heap) :
    List (Nat × Nat) → List (Nat × Nat) → Option Ordering
  | [], [] => some .eq
  | [], _ :: _ => some .lt
  | _ :: _, [] => some .gt
  | (k1, v1) :: t1, (k2, v2) :: t2 =>
    match f (heapGet h k1) (heapGet h k2) with
    | none => none
    | some .lt => some .lt
    | some .gt => some .gt
    | some .eq =>
      match f (heapGet h v1) (heapGet h v2) with
      | none => none
      | some .lt => some .lt
      | some .gt => some .gt
      | some .eq => entryListCmp f h t1 t2

/-- Model of the derived `Ord` on `LuaValue`: variants of different rank
compare by `variantRank`; `Number` uses `f64::total_cmp`
(`impl Ord for LuaNumber`), `String` is lexicographic, `Boolean` has
`false < true`, `Function` compares the unique ids, `Table` is the
`BTreeMap` lexicographic order through the shared cells. -/
def valCmp (h : Heap) : Nat → LuaVal → LuaVal → Option Ordering
  | 0, _, _ => none
  | fuel + 1, a, b =>
    match a, b with
    | .Number x, .Number y => some (x.cmp y)
    | .Str s, .Str t => some (compare s t)
    | .Boolean x, .Boolean y => some (compare x y)
    | .Nil, .Nil => some .eq
    | .Function i, .Function j => some (compare i j)
    | .Table e1, .Table e2 => entryListCmp (fun x y => valCmp h fuel x y) h e1 e2
    | _, _ => some (compare (variantRank a) (variantRank b))

/-! ## String conversion and arithmetic on values -/

/-- Model of Rust's default `Display` for the `f64` wrapped in
`LuaNumber` (`format!("{}", n.0)`), on the exact rationals of the model:
integral values print without a decimal point, exactly as `Display`
prints integral doubles.  No claim settled here inspects the text of a
non-integral number. -/
def numToString (q : LuaNum) : String :=
  if q.den ≠ 0 ∧ q.num % (q.den : Int) = 0 then toString (q.num / (q.den : Int))
  else match (List.range 18).find? (fun j => (q.num * 10 ^ j) % (q.den : Int) = 0) with
    | some j =>
      let scaled := q.num * 10 ^ j / (q.den : Int)
      let sign := if scaled < 0 then "-" else ""
      let digits := toString scaled.natAbs
      let digits := if digits.length ≤ j then String.mk (List.replicate (j + 1 - digits.length) '0') ++ digits else digits
      sign ++ digits.take (digits.length - j) ++ "." ++ digits.drop (digits.length - j)
    | none => toString q.num ++ "/" ++ toString q.den  -- outside the modelled fragment

/-- Printed form of a cell pointer (`{:?}` on `Rc::as_ptr`): the model
uses the heap cell id as the address (addresses are arbitrary in Rust
and no claim depends on their text). -/
def ptrRepr (c : Nat) : String := "0x" ++ toString c

/-- The string the built-in `tostring` (`src/libs/global.rs`) produces
for the value `v` stored in cell `c`. -/
def tostringRepr (v : LuaVal) (c : Nat) : String :=
  match v with
  | .Str s => s
  | .Number n => numToString n
  | .Boolean b => if b then "true" else "false"
  | .Nil => "nil"
  | .Table _ => "table:" ++ ptrRepr c
  | .Function _ => "function:" ++ ptrRepr c

/-- Digits of a decimal literal read left to right, `none` when a
non-digit occurs or the list is empty. -/
def decDigits : List Char → Option Nat
  | [] => none
  | cs => cs.foldl (fun acc c =>
      match acc with
      | none => none
      | some n => if c.isDigit then some (n * 10 + (c.toNat - 48)) else none)
      (some 0)

/-- Model of `str::parse::<f64>` as used by the arithmetic coercions:
an optional sign, integer digits and an optional fraction part.  Exotic
float syntax (exponents, `inf`, `NaN`, leading dots) is out of the
modelled fragment; no claim settled here exercises string coercion. -/
def parseF64 (s : String) : Option LuaNum :=
  let core (t : List Char) : Option LuaNum :=
    match t.splitOn '.' with
    | [intPart] => (decDigits intPart).map LuaNum.ofNat
    | [intPart, fracPart] =>
      match decDigits intPart, decDigits fracPart with
      | some n, some f => some ⟨(n : Int) * 10 ^ fracPart.length + (f : Int), 10 ^ fracPart.length⟩
      | _, _ => none
    | _ => none
  match s.toList with
  | '-' :: rest => (core rest).map LuaNum.neg
  | cs => core cs

/-- Model of `impl Add for LuaValue` (`src/types/value.rs`): numbers
add; numeric strings are parsed as doubles first; anything else is an
`UnsupportedArithmeticOperation` error.  A failed parse is the
`ParseFloatError` propagated by the `?` operator. -/
def valAdd (a b : LuaVal) : Except LuaError LuaVal :=
  match a, b with
  | .Number x, .Number y => .ok (.Number (x.add y))
  | .Str s, .Str t =>
    match parseF64 s, parseF64 t with
    | some x, some y => .ok (.Number (x.add y))
    | _, _ => .error .ParseFloatError
  | .Str s, .Number y =>
    match parseF64 s with
    | some x => .ok (.Number (x.add y))
    | none => .error .ParseFloatError
  | .Number x, .Str t =>
    match parseF64 t with
    | some y => .ok (.Number (x.add y))
    | none => .error .ParseFloatError
  | _, _ => .error .UnsupportedArithmeticOperation

/-- Model of `impl Sub for LuaValue`, same shape as `valAdd`. -/
def valSub (a b : LuaVal) : Except LuaError LuaVal :=
  match a, b with
  | .Number x, .Number y => .ok (.Number (x.sub y))
  | .Str s, .Str t =>
    match parseF64 s, parseF64 t with
    | some x, some y => .ok (.Number (x.sub y))
    | _, _ => .error .ParseFloatError
  | .Str s, .Number y =>
    match parseF64 s with
    | some x => .ok (.Number (x.sub y))
    | none => .error .ParseFloatError
  | .Number x, .Str t =>
    match parseF64 t with
    | some y => .ok (.Number (x.sub y))
    | none => .error .ParseFloatError
  | _, _ => .error .UnsupportedArithmeticOperation

/-- Model of `impl Mul for LuaValue`, same shape as `valAdd`. -/
def valMul (a b : LuaVal) : Except LuaError LuaVal :=
  match a, b with
  | .Number x, .Number y => .ok (.Number (x.mul y))
  | .Str s, .Str t =>
    match parseF64 s, parseF64 t with
    | some x, some y => .ok (.Number (x.mul y))
    | _, _ => .error .ParseFloatError
  | .Str s, .Number y =>
    match parseF64 s with
    | some x => .ok (.Number (x.mul y))
    | none => .error .ParseFloatError
  | .Number x, .Str t =>
    match parseF64 t with
    | some y => .ok (.Number (x.mul y))
    | none => .error .ParseFloatError
  | _, _ => .error .UnsupportedArithmeticOperation

/-- Model of `LuaValue::unm`: unary minus on numbers only. -/
def valUnm (a : LuaVal) : Except LuaError LuaVal :=
  match a with
  | .Number n => .ok (.Number n.neg)
  | _ => .error .UnsupportedArithmeticOperation

/-- Model of `LuaValue::concat` (`src/types/value.rs`).  The receiver
decides everything: a `String` receiver appends `tostring` of the right
operand (which never fails, whatever the operand's type), a `Number`
receiver stringifies both sides, and every other receiver raises its
per-type concatenation error.  The right operand is moved into a fresh
temporary cell by `rhs.into()` before `tostring` prints it; the model
gives that temporary the next free address. -/
def LuaVal.concat (h : Heap) (l r : LuaVal) : Except LuaError LuaVal :=
  match l with
  | .Str s => .ok (.Str (s ++ tostringRepr r h.length))
  | .Number n => .ok (.Str (numToString n ++ tostringRepr r (h.length + 1)))
  | .Boolean _ => .error .AttemptedBooleanConcatenation
  | .Function _ => .error .AttemptedFunctionConcatenation
  | .Table _ => .error .AttemptedTableConcatenation
  | .Nil => .error .AttemptedNilConcatenation

/-! ## Built-ins (`src/libs/global.rs`)

Each built-in receives the heap and the argument cells, and produces the
possibly grown heap, the text written to standard output, and the result
cells. -/

/-- Model of the built-in `print`: when there is at least one argument,
each argument is converted with `tostring` (which allocates a fresh
string cell whose contents are then read back with `as_string`) and a
tab is appended after every field, the last included; the accumulated
line is then written with `println!`, which appends one newline.  With
no arguments nothing is written at all. -/
def luaPrint (h : Heap) (args : List Nat) : Except LuaError (Heap × String × List Nat) :=
  if args.length > 0 then
    let (h2, s) := args.foldl
      (fun (acc : Heap × String) (arg : Nat) =>
        let (h1, c) := heapAlloc acc.1 (.Str (tostringRepr (heapGet acc.1 arg) arg))
        match heapGet h1 c with
        | .Str x => (h1, acc.2 ++ x ++ "\t")
        | _ => (h1, acc.2))   -- unreachable: tostring always yields a string
      (h, "")
    .ok (h2, s ++ "\n", [])
  else
    .ok (h, "", [])

/-- Model of the built-in `tostring`: `ExpectedArgument` on an empty
argument list, otherwise a single fresh cell holding the canonical
string for the first argument (the pointer printed for tables and
functions is the argument cell's own address). -/
def luaTostring (h : Heap) (args : List Nat) : Except LuaError (Heap × String × List Nat) :=
  match args with
  | [] => .error .ExpectedArgument
  | a :: _ =>
    let (h1, c) := heapAlloc h (.Str (tostringRepr (heapGet h a) a))
    .ok (h1, "", [c])

/-- Model of the built-in `error`: an empty argument list returns early
with no results (`lua_return!()`); otherwise the first argument is
stringified, the optional second argument must be a number
(`as_f64`, else `ExpectedNumber`), and the call fails with
`TriggeredByUser`. -/
def luaErrorFn (h : Heap) (args : List Nat) : Except LuaError (Heap × String × List Nat) :=
  match args with
  | [] => .ok (h, "", [])
  | a :: rest =>
    let msg := tostringRepr (heapGet h a) a
    match rest with
    | [] => .error (.TriggeredByUser msg none)
    | b :: _ =>
      match heapGet h b with
      | .Number n => .error (.TriggeredByUser msg (some n))
      | _ => .error .ExpectedNumber

/-! ## Bytecode (`src/bytecode.rs`) -/

/-- Instruction layout modes. -/
inductive OpMode where
  | iABC
  | iABx
  | iAsBx
deriving Repr, DecidableEq

/-- The 38 opcodes of Lua 5.1, in the discriminant order of the source
enum (`SELF` is spelled `LSelf` there to dodge the Rust keyword). -/
inductive OpCode where
  | Move | LoadK | LoadBool | LoadNil | GetUpValue | GetGlobal | GetTable
  | SetGlobal | SetUpValue | SetTable | NewTable | LSelf
  | Add | Sub | Mul | Div | Mod | Pow
  | UnaryMinus | Not | Len | Concat | Jmp
  | Eq | Lt | Le | Test | TestSet
  | Call | TailCall | Return | ForLoop | ForPrep | TForLoop
  | SetList | Close | Closure | Vararg
deriving Repr, DecidableEq

/-- Model of `impl From<u8> for OpCode`: the numeric discriminant table;
the Rust code panics on a byte outside `0..=37`, modelled as `none`. -/
def opCodeOfNat : Nat → Option OpCode
  | 0 => some .Move
  | 1 => some .LoadK
  | 2 => some .LoadBool
  | 3 => some .LoadNil
  | 4 => some .GetUpValue
  | 5 => some .GetGlobal
  | 6 => some .GetTable
  | 7 => some .SetGlobal
  | 8 => some .SetUpValue
  | 9 => some .SetTable
  | 10 => some .NewTable
  | 11 => some .LSelf
  | 12 => some .Add
  | 13 => some .Sub
  | 14 => some .Mul
  | 15 => some .Div
  | 16 => some .Mod
  | 17 => some .Pow
  | 18 => some .UnaryMinus
  | 19 => some .Not
  | 20 => some .Len
  | 21 => some .Concat
  | 22 => some .Jmp
  | 23 => some .Eq
  | 24 => some .Lt
  | 25 => some .Le
  | 26 => some .Test
  | 27 => some .TestSet
  | 28 => some .Call
  | 29 => some .TailCall
  | 30 => some .Return
  | 31 => some .ForLoop
  | 32 => some .ForPrep
  | 33 => some .TForLoop
  | 34 => some .SetList
  | 35 => some .Close
  | 36 => some .Closure
  | 37 => some .Vararg
  | _ => none

/-- The `OP_CODE_MODES` table. -/
def opMode : OpCode → OpMode
  | .Move => .iABC
  | .LoadK => .iABx
  | .LoadBool => .iABC
  | .LoadNil => .iABC
  | .GetUpValue => .iABC
  | .GetGlobal => .iABx
  | .GetTable => .iABC
  | .SetGlobal => .iABx
  | .SetUpValue => .iABC
  | .SetTable => .iABC
  | .NewTable => .iABC
  | .LSelf => .iABC
  | .Add => .iABC
  | .Sub => .iABC
  | .Mul => .iABC
  | .Div => .iABC
  | .Mod => .iABC
  | .Pow => .iABC
  | .UnaryMinus => .iABC
  | .Not => .iABC
  | .Len => .iABC
  | .Concat => .iABC
  | .Jmp => .iAsBx
  | .Eq => .iABC
  | .Lt => .iABC
  | .Le => .iABC
  | .Test => .iABC
  | .TestSet => .iABC
  | .Call => .iABC
  | .TailCall => .iABC
  | .Return => .iABC
  | .ForLoop => .iAsBx
  | .ForPrep => .iAsBx
  | .TForLoop => .iABC
  | .SetList => .iABC
  | .Close => .iABC
  | .Closure => .iABx
  | .Vararg => .iABC

/-- `FIELDS_PER_FLUSH` (`src/bytecode.rs`). -/
def FIELDS_PER_FLUSH : Nat := 50

/-- Model of the `Instruction` record: decoded opcode, layout mode and
the pre-extracted operand fields. -/
structure Instr where
  mode : OpMode
  code : OpCode
  A : Nat
  B : Nat
  C : Nat
  Bx : Nat
  sBx : Int
deriving Repr, DecidableEq

/-- Model of `impl From<u32> for Instruction`: the opcode is bits 0 to 5
(panic, here `none`, above 37), `A` is bits 6 to 13, and depending on
the opcode's mode either `C` (bits 14 to 22) and `B` (bits 23 to 31), or
`Bx` (bits 14 to 31), or `sBx = Bx - 131071` is filled in, the remaining
fields staying zero. -/
def decodeInstr (w : Nat) : Option Instr :=
  match opCodeOfNat (w &&& 63) with
  | none => none
  | some code =>
    let a := (w >>> 6) &&& 255
    match opMode code with
    | .iABC =>
      some { mode := .iABC, code := code, A := a,
             B := (w >>> 23) &&& 511, C := (w >>> 14) &&& 511, Bx := 0, sBx := 0 }
    | .iABx =>
      some { mode := .iABx, code := code, A := a,
             B := 0, C := 0, Bx := (w >>> 14) &&& 262143, sBx := 0 }
    | .iAsBx =>
      some { mode := .iAsBx, code := code, A := a,
             B := 0, C := 0, Bx := 0,
             sBx := (((w >>> 14) &&& 262143 : Nat) : Int) - 131071 }

/-! ## The interpreter (`src/vm.rs`)

The model covers the dispatch loop and the opcode arms the claims
exercise; arms whose behaviour no claim depends on (the global table,
table indexing, the `Div`/`Pow`/`Mod` float operations, `TFORLOOP`,
`SETLIST`) answer the distinguished outcome `unmodeled`, and no theorem
below touches them. -/

/-- The fields of a decoded `LuaPrototype` the modelled fragment
consults: the `CLOSURE` arm reads `upvalue_count`, call entry reads
`param_count`.  (Instructions and constants of the top-level prototype
live in `ProgCtx`; nested prototypes are never executed by the claims,
whose scenarios stop at closure creation.) -/
structure Proto where
  upvalueCount : Nat
  paramCount : Nat
deriving Repr, DecidableEq

/-- The callable behind a `LuaFunction` id: one of the three built-ins
seeded by `load_std_libraries`, or a closure created by the `CLOSURE`
arm (a prototype plus its captured upvalue cells). -/
inductive FnImpl where
  | builtin (which : Fin 3)      -- 0 = print, 1 = error, 2 = tostring
  | closure (proto : Proto) (upvals : List Nat)
deriving Repr, DecidableEq

/-- Immutable per-execution context: the instruction vector and the
constant cells of the prototype being run, and its nested prototypes. -/
structure ProgCtx where
  instructions : List Instr
  constants : List Nat
  protos : List Proto
deriving Repr, DecidableEq

/-- Mutable interpreter state of one activation: the heap and function
store (process-wide), accumulated standard output, and the activation's
`pc`, register cells, `stack_top`, upvalue cells and vararg cells. -/
structure ExecState where
  heap : Heap
  funcs : List FnImpl
  out : String
  pc : Int
  stack : List Nat
  stackTop : Nat
  upvalues : List Nat
  vararg : List Nat
deriving Repr, DecidableEq

/-- Outcome of a fallible VM-internal operation: `crash` is a Rust
panic, `unmodeled` marks the arms outside the modelled fragment. -/
inductive VmOut (α : Type) where
  | ok (a : α)
  | err (e : LuaError)
  | crash
  | unmodeled
deriving Repr, DecidableEq

/-- Read `v[i]` on a Rust `Vec` (panics when out of bounds). -/
def readIdx (l : List Nat) (i : Nat) : VmOut Nat :=
  match l.get? i with
  | some c => .ok c
  | none => .crash

/-- Write `v[i] = x` on a Rust `Vec` (panics when out of bounds). -/
def writeIdx (l : List Nat) (i : Nat) (x : Nat) : VmOut (List Nat) :=
  if i < l.length then .ok (l.set i x) else .crash

/-- The `get_rk!` macro: operands at 256 or above address the constant
pool (`ConstantNotFound` when absent), smaller ones the register
window. -/
def getRK (ctx : ProgCtx) (stack : List Nat) (idx : Nat) : VmOut Nat :=
  if idx ≥ 256 then
    match ctx.constants.get? (idx - 256) with
    | some c => .ok c
    | none => .err (.ConstantNotFound (idx - 256))
  else readIdx stack idx

/-- Invoke one of the three built-ins on argument cells. -/
def invokeBuiltin (which : Fin 3) (h : Heap) (args : List Nat) :
    Except LuaError (Heap × String × List Nat) :=
  match which with
  | 0 => luaPrint h args
  | 1 => luaErrorFn h args
  | 2 => luaTostring h args

/-- Model of `LuaValue::call` (`src/types/value.rs`): a `Function`
invokes its handler (built-ins run here; a closure's handler re-enters
`execute`, which is outside the modelled fragment, so it answers
`unmodeled`), a `Table` raises `AttemptedTableCall`, anything else
`AttemptedCallOnUnsupportedType`. -/
def callValue (funcs : List FnImpl) (h : Heap) (callee : LuaVal) (args : List Nat) :
    VmOut (Heap × String × List Nat) :=
  match callee with
  | .Function fid =>
    match funcs.get? fid with
    | some (.builtin w) =>
      match invokeBuiltin w h args with
      | .ok r => .ok r
      | .error e => .err e
    | some (.closure _ _) => .unmodeled
    | none => .unmodeled   -- unreachable: every Function value indexes the store
  | .Table _ => .err .AttemptedTableCall
  | _ => .err .AttemptedCallOnUnsupportedType

/-- Collect `stack[first..last]` (exclusive upper bound), panicking on
out-of-range indices exactly as Rust `Vec` indexing does. -/
def readRange (stack : List Nat) (first last : Nat) : VmOut (List Nat) :=
  (List.range' first (last - first)).foldl
    (fun acc i =>
      match acc with
      | .ok cs =>
        match readIdx stack i with
        | .ok c => .ok (cs ++ [c])
        | .err e => .err e
        | .crash => .crash
        | .unmodeled => .unmodeled
      | other => other)
    (.ok [])

instance : Monad VmOut where
  pure := .ok
  bind x f :=
    match x with
    | .ok a => f a
    | .err e => .err e
    | .crash => .crash
    | .unmodeled => .unmodeled

/-- Lift a `LuaResult` (the `?` operator on `LuaResult`) into `VmOut`. -/
def VmOut.ofExcept : Except LuaError α → VmOut α
  | .ok a => .ok a
  | .error e => .err e

/-- Lift an optional comparison result; exhausted fuel stands for the
unbounded recursion a cyclic comparison would be in Rust. -/
def VmOut.ofCmp : Option α → VmOut α
  | some a => .ok a
  | none => .crash

/-- Result of one loop iteration: continue with the next state, or
return from `execute` with the given result cells. -/
inductive StepRes where
  | next (s : ExecState)
  | ret (vals : List Nat) (s : ExecState)
deriving Repr, DecidableEq

/-- One iteration of the dispatch loop of `VirtualMachine::execute`
(`src/vm.rs`), executing `inst` on state `s`: the translation of the
`match inst.code` block.  `pc` changes only by the amounts the arms
apply; the loop's own `pc += 1` lives in `execLoop`.  `fuel` bounds the
recursion depth of the derived value comparisons. -/
def stepInstr (ctx : ProgCtx) (fuel : Nat) (s : ExecState) (inst : Instr) : VmOut StepRes :=
  match inst.code with
  | .Move => do
    let c ← readIdx s.stack inst.B
    let st ← writeIdx s.stack inst.A c
    pure (.next { s with stack := st })
  | .LoadNil =>
    -- for i in A..B: S[i] = fresh nil cell (the upper bound is exclusive)
    let r := (List.range' inst.A (inst.B - inst.A)).foldl
      (fun (acc : VmOut (Heap × List Nat)) i => do
        let (h, st) ← acc
        let (h1, c) := heapAlloc h .Nil
        let st1 ← writeIdx st i c
        pure (h1, st1))
      (pure (s.heap, s.stack))
    do
      let (h, st) ← r
      pure (.next { s with heap := h, stack := st })
  | .LoadK => do
    match ctx.constants.get? inst.Bx with
    | some k => do
      let st ← writeIdx s.stack inst.A k
      pure (.next { s with stack := st })
    | none => .err (.ConstantNotFound inst.Bx)
  | .LoadBool => do
    let (h, c) := heapAlloc s.heap (.Boolean (inst.B > 0))
    let st ← writeIdx s.stack inst.A c
    pure (.next { s with heap := h, stack := st,
                         pc := if inst.C ≠ 0 then s.pc + 1 else s.pc })
  | .GetUpValue => do
    -- the source reads `upvalues[inst.Bx]`, not `inst.B`; decoded
    -- iABC instructions always carry Bx = 0
    let c ← readIdx s.upvalues inst.Bx
    let st ← writeIdx s.stack inst.A c
    pure (.next { s with stack := st })
  | .SetUpValue => do
    -- `upvalues[inst.B] = stack[inst.A].clone()`: the slot of the
    -- activation-local upvalue vector is re-bound to the register's
    -- cell; no cell content is written
    let c ← readIdx s.stack inst.A
    let uv ← writeIdx s.upvalues inst.B c
    pure (.next { s with upvalues := uv })
  | .Add => stepArith valAdd ctx s inst
  | .Sub => stepArith valSub ctx s inst
  | .Mul => stepArith valMul ctx s inst
  | .UnaryMinus => do
    let cb ← readIdx s.stack inst.B
    let v ← VmOut.ofExcept (valUnm (heapGet s.heap cb))
    let (h, c) := heapAlloc s.heap v
    let st ← writeIdx s.stack inst.A c
    pure (.next { s with heap := h, stack := st })
  | .Not => do
    let cb ← readIdx s.stack inst.B
    match heapGet s.heap cb with
    | .Boolean b => do
      let (h, c) := heapAlloc s.heap (.Boolean !b)
      let st ← writeIdx s.stack inst.A c
      pure (.next { s with heap := h, stack := st })
    | _ => .err .AttemptedNotOperationOnNonBoolean
  | .Len => do
    let cb ← readIdx s.stack inst.B
    let v ← match heapGet s.heap cb with
      | .Str str => pure (LuaVal.Number (LuaNum.ofNat str.utf8ByteSize))
      | .Table e => pure (LuaVal.Number (LuaNum.ofNat e.length))
      | _ => VmOut.err .UnsupportedLengthOperation
    let (h, c) := heapAlloc s.heap v
    let st ← writeIdx s.stack inst.A c
    pure (.next { s with heap := h, stack := st })
  | .Concat => do
    let cb ← readIdx s.stack inst.B
    let cc ← readIdx s.stack inst.C
    let v ← VmOut.ofExcept (LuaVal.concat s.heap (heapGet s.heap cb) (heapGet s.heap cc))
    let (h, c) := heapAlloc s.heap v
    let st ← writeIdx s.stack inst.A c
    pure (.next { s with heap := h, stack := st })
  | .Jmp => pure (.next { s with pc := s.pc + inst.sBx })
  | .Eq => do
    let lhs ← getRK ctx s.stack inst.B
    let rhs ← getRK ctx s.stack inst.C
    let res ← VmOut.ofCmp (valEq s.heap fuel (heapGet s.heap lhs) (heapGet s.heap rhs))
    pure (.next { s with pc := if res ≠ (inst.A == 1) then s.pc + 1 else s.pc })
  | .Lt => do
    let lhs ← getRK ctx s.stack inst.B
    let rhs ← getRK ctx s.stack inst.C
    let o ← VmOut.ofCmp (valCmp s.heap fuel (heapGet s.heap lhs) (heapGet s.heap rhs))
    let res := o == .lt
    pure (.next { s with pc := if res ≠ (inst.A == 1) then s.pc + 1 else s.pc })
  | .Le => do
    let lhs ← getRK ctx s.stack inst.B
    let rhs ← getRK ctx s.stack inst.C
    let o ← VmOut.ofCmp (valCmp s.heap fuel (heapGet s.heap lhs) (heapGet s.heap rhs))
    let res := o == .lt || o == .eq
    pure (.next { s with pc := if res ≠ (inst.A == 1) then s.pc + 1 else s.pc })
  | .Test => do
    let ca ← readIdx s.stack inst.A
    match heapGet s.heap ca with
    | .Boolean b =>
      pure (.next { s with pc := if b ≠ (inst.C == 1) then s.pc + 1 else s.pc })
    | _ => pure (.next s)   -- non-boolean: silently a no-op
  | .TestSet => do
    let cb ← readIdx s.stack inst.B
    let v ← match heapGet s.heap cb with
      | .Boolean b => pure b
      | _ => VmOut.crash    -- explicit `panic!()` in the source
    if v == (inst.C == 1) then do
      let st ← writeIdx s.stack inst.A cb
      pure (.next { s with stack := st })
    else
      pure (.next { s with pc := s.pc + 1 })
  | .Call => do
    let lastArg := if inst.B == 0 then s.stackTop else inst.A + inst.B
    let args ← readRange s.stack (inst.A + 1) lastArg
    let ca ← readIdx s.stack inst.A
    let (h2, outAdd, results) ← callValue s.funcs s.heap (heapGet s.heap ca) args
    -- `stack_top = inst.A + results.len() - 1` in usize: underflows
    -- (panics) when both are zero
    let newTop ←
      if inst.C == 0 then
        if inst.A + results.length == 0 then VmOut.crash
        else pure (inst.A + results.length - 1)
      else pure s.stackTop
    let count := if inst.C ≠ 0 then inst.C - 1 else results.length
    let st ← (List.range count).foldlM
      (fun st i => do
        let r ← readIdx results i   -- `results[i]` panics when absent
        writeIdx st (inst.A + i) r)
      s.stack
    pure (.next { s with heap := h2, out := s.out ++ outAdd,
                         stack := st, stackTop := newTop })
  | .Return => do
    let last := if inst.B == 0 then s.stackTop else inst.A + inst.B - 1
    let vals ← readRange s.stack inst.A last
    pure (.ret vals s)
  | .TailCall => do
    -- `inst.A + inst.B - 1` in usize: underflows when both are zero
    if inst.A + inst.B == 0 then VmOut.crash
    else do
      let args ← readRange s.stack (inst.A + 1) (inst.A + inst.B - 1)
      let ca ← readIdx s.stack inst.A
      let (h2, outAdd, results) ← callValue s.funcs s.heap (heapGet s.heap ca) args
      pure (.ret results { s with heap := h2, out := s.out ++ outAdd })
  | .ForLoop => do
    let ci ← readIdx s.stack inst.A
    let cl ← readIdx s.stack (inst.A + 1)
    let cs ← readIdx s.stack (inst.A + 2)
    let index := heapGet s.heap ci
    let limit := heapGet s.heap cl
    let step := heapGet s.heap cs
    -- `step >= 0f64.into()` through the derived PartialOrd
    let og ← VmOut.ofCmp (valCmp s.heap fuel step (.Number 0))
    let doLoop ←
      if og == .gt || og == .eq then do
        let o ← VmOut.ofCmp (valCmp s.heap fuel index limit)
        pure (o == .lt || o == .eq)      -- index <= limit
      else do
        let o ← VmOut.ofCmp (valCmp s.heap fuel index limit)
        pure (o == .gt || o == .eq)      -- index >= limit
    if doLoop then do
      let sum ← VmOut.ofExcept (valAdd index step)
      let (h, c) := heapAlloc s.heap sum
      let st1 ← writeIdx s.stack inst.A c
      let cA ← readIdx st1 inst.A
      let st2 ← writeIdx st1 (inst.A + 3) cA
      pure (.next { s with heap := h, stack := st2, pc := s.pc + inst.sBx })
    else
      pure (.next s)
  | .ForPrep => do
    let ci ← readIdx s.stack inst.A
    let cs ← readIdx s.stack (inst.A + 2)
    let v ← VmOut.ofExcept (valSub (heapGet s.heap ci) (heapGet s.heap cs))
    let (h, c) := heapAlloc s.heap v
    let st ← writeIdx s.stack inst.A c
    pure (.next { s with heap := h, stack := st, pc := s.pc + inst.sBx })
  | .NewTable => do
    -- preallocate keys 1..B (each key and each nil value is a fresh cell)
    let (h, entries) := (List.range' 1 inst.B).foldl
      (fun (acc : Heap × List (Nat × Nat)) i =>
        let (h1, kc) := heapAlloc acc.1 (.Number (LuaNum.ofNat i))
        let (h2, vc) := heapAlloc h1 .Nil
        (h2, acc.2 ++ [(kc, vc)]))
      (s.heap, [])
    let (h3, c) := heapAlloc h (.Table entries)
    let st ← writeIdx s.stack inst.A c
    pure (.next { s with heap := h3, stack := st })
  | .Closure => do
    match ctx.protos.get? inst.Bx with
    | none => VmOut.crash   -- `function.prototypes[inst.Bx]` panics
    | some proto => do
      let upvals ←
        if proto.upvalueCount > 0 then
          -- for i in 0..upvalue_count: the pseudo instruction is read at
          -- `instructions[pc + i]` (pc still points AT this CLOSURE), and
          -- the capture is written by INDEX into the empty vector
          (List.range proto.upvalueCount).foldlM
            (fun (subUpvals : List Nat) i => do
              match ctx.instructions.get? (s.pc.toNat + i) with
              | none => VmOut.crash
              | some pseudo =>
                if pseudo.code = .Move then do
                  let x ← readIdx s.stack pseudo.B
                  writeIdx subUpvals i x
                else if pseudo.code = .GetUpValue then do
                  let x ← readIdx s.upvalues pseudo.B
                  writeIdx subUpvals i x
                else
                  pure subUpvals)
            []
        else pure []
      let pc1 := if proto.upvalueCount > 0 then s.pc + proto.upvalueCount else s.pc
      -- a fresh LuaFunction id (random u64 in Rust, next store index here)
      let fid := s.funcs.length
      let (h, c) := heapAlloc s.heap (.Function fid)
      let st ← writeIdx s.stack inst.A c
      pure (.next { s with heap := h, stack := st, pc := pc1,
                           funcs := s.funcs ++ [.closure proto upvals] })
  | .Close =>
    -- for i in 0..A: UV[i] = fresh nil cell
    let r := (List.range inst.A).foldlM
      (fun (acchuv : Heap × List Nat) i => do
        let (h1, c) := heapAlloc acchuv.1 .Nil
        let uv ← writeIdx acchuv.2 i c
        pure (h1, uv))
      (s.heap, s.upvalues)
    do
      let (h, uv) ← r
      pure (.next { s with heap := h, upvalues := uv })
  | .Vararg => do
    let (top1, len) :=
      if inst.B == 0 then (inst.A + s.vararg.length, s.vararg.length)
      else (s.stackTop, inst.B)
    let r ← (List.range len).foldlM
      (fun (acc : Heap × List Nat) i => do
        let (h1, v) := match s.vararg.get? i with
          | some c => (acc.1, c)
          | none => heapAlloc acc.1 .Nil
        let st ← writeIdx acc.2 (inst.A + i) v
        pure (h1, st))
      (s.heap, s.stack)
    pure (.next { s with heap := r.1, stack := r.2, stackTop := top1 })
  | _ => .unmodeled
where
  /-- The shared `Add | Sub | Mul | Div | Pow | Mod` arm, instantiated
  with the value operation (`Div`/`Pow`/`Mod` stay unmodelled: their
  float semantics has no exact rational counterpart). -/
  stepArith (op : LuaVal → LuaVal → Except LuaError LuaVal)
      (ctx : ProgCtx) (s : ExecState) (inst : Instr) : VmOut StepRes := do
    let lhs ← getRK ctx s.stack inst.B
    let rhs ← getRK ctx s.stack inst.C
    let v ← VmOut.ofExcept (op (heapGet s.heap lhs) (heapGet s.heap rhs))
    let (h, c) := heapAlloc s.heap v
    let st ← writeIdx s.stack inst.A c
    pure (.next { s with heap := h, stack := st })

/-- Final outcome of `VirtualMachine::execute`. -/
inductive ExecResult where
  | ok (vals : List Nat)
  | error (e : LuaError)
  | crash
  | unmodeled
  | outOfFuel
deriving Repr, DecidableEq

/-- The dispatch loop of `VirtualMachine::execute`:
`while pc < instructions.len() as i64` fetches `instructions[pc]`, runs
the arm, and adds one to `pc`; leaving the loop (the condition fails)
returns `Ok(vec![])`.  A negative `pc` passes the loop condition and
panics on the `pc as usize` index.  `fuel` bounds the number of
iterations (the Rust loop may not terminate). -/
def execLoop (ctx : ProgCtx) : Nat → ExecState → ExecResult
  | fuel, s =>
    if (ctx.instructions.length : Int) ≤ s.pc then .ok []
    else if s.pc < 0 then .crash
    else
      match fuel with
      | 0 => .outOfFuel
      | fuel' + 1 =>
        match ctx.instructions.get? s.pc.toNat with
        | none => .crash
        | some inst =>
          match stepInstr ctx fuel' s inst with
          | .ok (.next s') => execLoop ctx fuel' { s' with pc := s'.pc + 1 }
          | .ok (.ret vals _) => .ok vals
          | .err e => .error e
          | .crash => .crash
          | .unmodeled => .unmodeled

/-- Entry of `VirtualMachine::execute` before the loop: the register
window is `vec![Rc::new(RefCell::new(Nil)); 255]` — note `vec!` clones
the `Rc`, so all 255 registers initially alias ONE nil cell — the first
`param_count` arguments are copied into the low registers and the excess
arguments are appended to the vararg vector, and `pc`/`stack_top` start
at zero. -/
def execEntry (h : Heap) (funcs : List FnImpl) (proto : Proto)
    (args : List Nat) (upvals : List Nat) (vararg : List Nat) : ExecState :=
  let (h1, nilCell) := heapAlloc h .Nil
  let stack0 := List.replicate 255 nilCell
  let stack1 := (List.range proto.paramCount).foldl
    (fun st i => st.set i (args.getD i nilCell)) stack0
  let extra := args.drop proto.paramCount
  { heap := h1, funcs := funcs, out := "", pc := 0,
    stack := stack1, stackTop := 0, upvalues := upvals,
    vararg := vararg ++ extra }

deriving instance DecidableEq for Except

/-! ## Settlement of the claims -/

/-- An empty program context, for opcode-level scenarios whose arm does
not consult the instruction vector, the constant pool or the prototype
list. -/
def noProg : ProgCtx := { instructions := [], constants := [], protos := [] }

/-- C1: the claim states that FORLOOP first performs `R[A] += R[A+2]`
and then tests the loop condition on the UPDATED `R[A]`, writing
`R[A+3]` and jumping only when it holds.  The code tests the condition
on the OLD `R[A]` and performs the addition, the `R[A+3]` write and the
jump together only when that pre-test holds.  Evaluated at
`R[0] = 1, R[1] = 1, R[2] = 1` (step positive, `sBx = -1`): the updated
index would be `2 > 1`, so under the claim nothing is written and no
jump happens; the code instead takes the branch, stores a cell holding
`2` into both `R[0]` and `R[3]`, and adds `sBx` to `pc`. -/
theorem C1_forloop_checks_before_add :
    stepInstr noProg 1
      { heap := [.Number 1, .Number 1, .Number 1, .Number 0], funcs := [],
        out := "", pc := 0, stack := [0, 1, 2, 3], stackTop := 0,
        upvalues := [], vararg := [] }
      { mode := .iAsBx, code := .ForLoop, A := 0, B := 0, C := 0, Bx := 0, sBx := -1 } =
    .ok (.next
      { heap := [.Number 1, .Number 1, .Number 1, .Number 0, .Number 2],
        funcs := [], out := "", pc := -1, stack := [4, 1, 2, 4],
        stackTop := 0, upvalues := [], vararg := [] }) := by
  decide

/-- C2: the claim states that a SETUPVAL write through one closure's
upvalue is observed by a sibling closure's GETUPVAL read of the same
shared cell.  In the code `upvalues[B] = stack[A].clone()` re-binds the
writer's OWN upvalue-vector slot to the register's cell and never writes
the shared cell, so the sibling still reads the old value.  Here both
activations share upvalue cell `0` (holding `1`); the writer's register
holds `42` in cell `1`.  After the writer's SETUPVAL its vector is
re-bound to `[1]`, the heap is untouched, and the sibling's GETUPVAL
still copies cell `0`, whose value is `1`, not the written `42`. -/
theorem C2_setupvalue_rebinds_not_writes :
    stepInstr noProg 1
      { heap := [.Number 1, .Number 42], funcs := [], out := "", pc := 0,
        stack := [1], stackTop := 0, upvalues := [0], vararg := [] }
      { mode := .iABC, code := .SetUpValue, A := 0, B := 0, C := 0, Bx := 0, sBx := 0 } =
    .ok (.next
      { heap := [.Number 1, .Number 42], funcs := [], out := "", pc := 0,
        stack := [1], stackTop := 0, upvalues := [1], vararg := [] }) ∧
    stepInstr noProg 1
      { heap := [.Number 1, .Number 42], funcs := [], out := "", pc := 0,
        stack := [1], stackTop := 0, upvalues := [0], vararg := [] }
      { mode := .iABC, code := .GetUpValue, A := 0, B := 0, C := 0, Bx := 0, sBx := 0 } =
    .ok (.next
      { heap := [.Number 1, .Number 42], funcs := [], out := "", pc := 0,
        stack := [0], stackTop := 0, upvalues := [0], vararg := [] }) ∧
    heapGet [.Number 1, .Number 42] 0 = .Number 1 ∧
    (LuaVal.Number 1 : LuaVal) ≠ .Number 42 := by
  refine ⟨by decide, by decide, by decide, by decide⟩

/-- C3: the claim states `print` separates fields with tabs with NO
separator after the last field, so `print("hello")` writes exactly
`"hello\n"`.  The code appends a tab after EVERY field, the last
included, so `print("hello")` writes `"hello\t\n"`. -/
theorem C3_print_trailing_tab :
    luaPrint [.Str "hello"] [0] =
      .ok ([.Str "hello", .Str "hello"], "hello\t\n", []) ∧
    "hello\t\n" ≠ "hello\n" := by
  refine ⟨by decide, by decide⟩

/-- C4 counterexample: the claim states `Table` equality is by identity,
so two DISTINCT table values with identical contents compare unequal and
the EQ opcode (with `A = 0`) would not skip.  Two NEWTABLE instructions
allocate two distinct cells (`1` and `2`) each holding an empty table;
the EQ opcode dereferences both cells and compares the contents
structurally, finds them equal, and therefore skips (`pc` goes from `2`
to `3`), refuting identity equality. -/
theorem C4_counterexample_structural_table_eq :
    stepInstr noProg 3
      { heap := [.Nil], funcs := [], out := "", pc := 0,
        stack := [0, 0], stackTop := 0, upvalues := [], vararg := [] }
      { mode := .iABC, code := .NewTable, A := 0, B := 0, C := 0, Bx := 0, sBx := 0 } =
    .ok (.next
      { heap := [.Nil, .Table []], funcs := [], out := "", pc := 0,
        stack := [1, 0], stackTop := 0, upvalues := [], vararg := [] }) ∧
    stepInstr noProg 3
      { heap := [.Nil, .Table []], funcs := [], out := "", pc := 1,
        stack := [1, 0], stackTop := 0, upvalues := [], vararg := [] }
      { mode := .iABC, code := .NewTable, A := 1, B := 0, C := 0, Bx := 0, sBx := 0 } =
    .ok (.next
      { heap := [.Nil, .Table [], .Table []], funcs := [], out := "", pc := 1,
        stack := [1, 2], stackTop := 0, upvalues := [], vararg := [] }) ∧
    stepInstr noProg 3
      { heap := [.Nil, .Table [], .Table []], funcs := [], out := "", pc := 2,
        stack := [1, 2], stackTop := 0, upvalues := [], vararg := [] }
      { mode := .iABC, code := .Eq, A := 0, B := 0, C := 1, Bx := 0, sBx := 0 } =
    .ok (.next
      { heap := [.Nil, .Table [], .Table []], funcs := [], out := "", pc := 3,
        stack := [1, 2], stackTop := 0, upvalues := [], vararg := [] }) ∧
    (1 : Nat) ≠ 2 := by
  refine ⟨by decide, by decide, by decide, by decide⟩

/-- C4 amended: equality of values is structural not only for `Nil`,
`Boolean`, `Number` and `String` but ALSO for `Table` (contents are
compared through the shared cells, so two distinct tables with identical
contents compare equal — see the counterexample); only `Function`
equality is by identity, the unique 64-bit id. -/
theorem C4_eq_structure_amended (h : Heap) (fuel : Nat) (hf : 1 ≤ fuel) :
    (∀ x y : LuaNum, valEq h fuel (.Number x) (.Number y) = some (x.beq y)) ∧
    (∀ s t : String, valEq h fuel (.Str s) (.Str t) = some (s == t)) ∧
    (∀ a b : Bool, valEq h fuel (.Boolean a) (.Boolean b) = some (a == b)) ∧
    valEq h fuel .Nil .Nil = some true ∧
    valEq h fuel (.Table []) (.Table []) = some true ∧
    (∀ i j : Nat, valEq h fuel (.Function i) (.Function j) = some (i == j)) := by
  match fuel, hf with
  | fuel + 1, _ =>
    exact ⟨fun x y => rfl, fun s t => rfl, fun a b => rfl, rfl, rfl, fun i j => rfl⟩

/-- C4 amended, witnessed at `h = []`, `fuel = 1`: two empty tables in
distinct cells compare equal. -/
theorem C4_eq_structure_amended_witness :
    valEq [] 1 (.Table []) (.Table []) = some true :=
  (C4_eq_structure_amended [] 1 (by decide)).2.2.2.2.1

/-- C5: the claim states a CLOSURE whose child prototype has
`upvalue_count = n > 0` consumes the `n` FOLLOWING pseudo-instructions
to populate the `n` entries of the new closure's upvalue array.  The
code (a) reads the pseudo window starting at the CLOSURE instruction
itself (`instructions[pc + i]`, `i` from `0`, with `pc` still at the
CLOSURE) — off by one — and (b) writes each capture by INDEX into a
vector created EMPTY, an out-of-bounds panic.  First conjunct:
`upvalue_count = 2` with two following MOVE pseudo-instructions panics
(iteration `i = 1` lands on the first MOVE and assigns slot 1 of the
empty vector).  Second conjunct: `upvalue_count = 1` with one following
MOVE creates the closure with an EMPTY upvalue array — iteration `i = 0`
reads the CLOSURE itself, which is neither MOVE nor GETUPVAL, so nothing
is captured, while `pc` is still advanced past the pseudo-instruction. -/
theorem C5_closure_upvalue_population_broken :
    stepInstr
      { instructions :=
          [{ mode := .iABx, code := .Closure, A := 0, B := 0, C := 0, Bx := 0, sBx := 0 },
           { mode := .iABC, code := .Move, A := 0, B := 1, C := 0, Bx := 0, sBx := 0 },
           { mode := .iABC, code := .Move, A := 0, B := 2, C := 0, Bx := 0, sBx := 0 }],
        constants := [], protos := [{ upvalueCount := 2, paramCount := 0 }] }
      1
      { heap := [.Nil, .Nil, .Nil], funcs := [], out := "", pc := 0,
        stack := [0, 1, 2], stackTop := 0, upvalues := [], vararg := [] }
      { mode := .iABx, code := .Closure, A := 0, B := 0, C := 0, Bx := 0, sBx := 0 } =
    .crash ∧
    stepInstr
      { instructions :=
          [{ mode := .iABx, code := .Closure, A := 0, B := 0, C := 0, Bx := 0, sBx := 0 },
           { mode := .iABC, code := .Move, A := 0, B := 1, C := 0, Bx := 0, sBx := 0 }],
        constants := [], protos := [{ upvalueCount := 1, paramCount := 0 }] }
      1
      { heap := [.Nil, .Nil, .Nil], funcs := [], out := "", pc := 0,
        stack := [0, 1, 2], stackTop := 0, upvalues := [], vararg := [] }
      { mode := .iABx, code := .Closure, A := 0, B := 0, C := 0, Bx := 0, sBx := 0 } =
    .ok (.next
      { heap := [.Nil, .Nil, .Nil, .Function 0],
        funcs := [.closure { upvalueCount := 1, paramCount := 0 } []],
        out := "", pc := 1, stack := [3, 1, 2], stackTop := 0,
        upvalues := [], vararg := [] }) := by
  refine ⟨by decide, by decide⟩

/-- C6: the claim states the CALL arm's `stack_top` update for `C = 0`
is guarded so that a callee returning zero results does not abort
execution.  It is not: the callee here is the built-in `print` with no
arguments, which returns zero results (first conjunct), and the arm then
computes `stack_top = A + results.len() - 1 = 0 + 0 - 1` in `usize`,
which underflows — a panic (second conjunct). -/
theorem C6_call_zero_results_underflow :
    callValue [.builtin 0] [.Function 0] (.Function 0) [] =
      .ok ([.Function 0], "", []) ∧
    stepInstr noProg 1
      { heap := [.Function 0], funcs := [.builtin 0], out := "", pc := 0,
        stack := [0], stackTop := 0, upvalues := [], vararg := [] }
      { mode := .iABC, code := .Call, A := 0, B := 1, C := 0, Bx := 0, sBx := 0 } =
    .crash := by
  refine ⟨by decide, by decide⟩

/-- C7 counterexample: the claim states concatenation fails with the
per-type error when EITHER operand is `Nil` (or `Boolean`, `Table`,
`Function`).  With a string LEFT operand and `nil` RIGHT operand the
code succeeds: the right operand is coerced through `tostring`, giving
`"a" .. nil = "anil"` instead of `AttemptedNilConcatenation`. -/
theorem C7_counterexample_string_concat_nil :
    LuaVal.concat [] (.Str "a") .Nil = .ok (.Str "anil") ∧
    LuaVal.concat [] (.Str "a") .Nil ≠ .error .AttemptedNilConcatenation := by
  refine ⟨by decide, by decide⟩

/-- C7 amended: concatenation succeeds exactly when the LEFT operand is
a string or a number — the right operand, of ANY type, is coerced with
`tostring` — and fails with the left operand's per-type concatenation
error when the left operand is `Nil`, `Boolean`, `Table` or
`Function`. -/
theorem C7_concat_left_operand_decides (h : Heap) (r : LuaVal) (s : String)
    (n : LuaNum) (b : Bool) (e : List (Nat × Nat)) (i : Nat) :
    LuaVal.concat h (.Str s) r = .ok (.Str (s ++ tostringRepr r h.length)) ∧
    LuaVal.concat h (.Number n) r =
      .ok (.Str (numToString n ++ tostringRepr r (h.length + 1))) ∧
    LuaVal.concat h .Nil r = .error .AttemptedNilConcatenation ∧
    LuaVal.concat h (.Boolean b) r = .error .AttemptedBooleanConcatenation ∧
    LuaVal.concat h (.Table e) r = .error .AttemptedTableConcatenation ∧
    LuaVal.concat h (.Function i) r = .error .AttemptedFunctionConcatenation :=
  ⟨rfl, rfl, rfl, rfl, rfl, rfl⟩

/-- C8: decoding a 32-bit instruction word extracts the opcode from bits
0 to 5, `A` from bits 6 to 13, `C` from bits 14 to 22 and `B` from bits
23 to 31 in iABC mode, `Bx` from bits 14 to 31 in iABx mode, and
`sBx = Bx - 131071` in iAsBx mode; every decoded instruction satisfies
`0 ≤ Bx < 2^18` and `-131071 ≤ sBx ≤ 131072`.  (A word whose opcode
bits exceed 37 panics in `From<u8> for OpCode` and decodes to
nothing.) -/
theorem C8_decode_fields_and_bounds (w : Nat) (hw : w < 2 ^ 32) (i : Instr)
    (hdec : decodeInstr w = some i) :
    opCodeOfNat (w &&& 63) = some i.code ∧
    i.mode = opMode i.code ∧
    i.A = (w >>> 6) &&& 255 ∧
    (i.mode = .iABC → i.C = (w >>> 14) &&& 511 ∧ i.B = (w >>> 23) &&& 511) ∧
    (i.mode = .iABx → i.Bx = (w >>> 14) &&& 262143) ∧
    (i.mode = .iAsBx → i.sBx = (((w >>> 14) &&& 262143 : Nat) : Int) - 131071) ∧
    i.Bx < 2 ^ 18 ∧ -131071 ≤ i.sBx ∧ i.sBx ≤ 131072 := by
  have hBx : (w >>> 14) &&& 262143 ≤ 262143 := Nat.and_le_right
  have h18 : (2 : Nat) ^ 18 = 262144 := by norm_num
  unfold decodeInstr at hdec
  cases hc : opCodeOfNat (w &&& 63) with
  | none => rw [hc] at hdec; cases hdec
  | some code =>
    rw [hc] at hdec
    cases hm : opMode code with
    | iABC =>
      simp only [hm] at hdec
      injection hdec with hi
      subst hi
      refine ⟨rfl, hm.symm, rfl, fun _ => ⟨rfl, rfl⟩, ?_, ?_,
              by norm_num, by norm_num, by norm_num⟩
      all_goals intro hx; cases hx
    | iABx =>
      simp only [hm] at hdec
      injection hdec with hi
      subst hi
      refine ⟨rfl, hm.symm, rfl, ?_, fun _ => rfl, ?_,
              lt_of_le_of_lt hBx (by norm_num), by norm_num, by norm_num⟩
      all_goals intro hx; cases hx
    | iAsBx =>
      simp only [hm] at hdec
      injection hdec with hi
      subst hi
      refine ⟨rfl, hm.symm, rfl, ?_, ?_, fun _ => rfl, by norm_num, ?_, ?_⟩
      · intro hx; cases hx
      · intro hx; cases hx
      · show (-131071 : Int) ≤ (((w >>> 14) &&& 262143 : Nat) : Int) - 131071
        omega
      · show (((w >>> 14) &&& 262143 : Nat) : Int) - 131071 ≤ 131072
        omega

/-- C8, witnessed at the word `1`: opcode `LoadK` (iABx) with `A = 0`
and `Bx = 0`, whose fields satisfy the stated bounds. -/
theorem C8_decode_fields_and_bounds_witness :
    (1 : Nat) < 2 ^ 32 ∧
    ({ mode := .iABx, code := .LoadK, A := 0, B := 0, C := 0, Bx := 0, sBx := 0 : Instr}).Bx
      < 2 ^ 18 :=
  ⟨by decide,
   (C8_decode_fields_and_bounds 1 (by decide)
     { mode := .iABx, code := .LoadK, A := 0, B := 0, C := 0, Bx := 0, sBx := 0 }
     (by decide)).2.2.2.2.2.2.1⟩

/-- C9: the claim states `tostring` and `error` treat the zero-argument
case consistently — either both return early or both raise
`ExpectedArgument`.  They do not: `error` with no arguments returns
early with `Ok(vec![])`, while `tostring` with no arguments raises
`ExpectedArgument`. -/
theorem C9_error_tostring_zero_args_differ :
    luaErrorFn [] [] = .ok ([], "", []) ∧
    luaTostring [] [] = .error .ExpectedArgument ∧
    (Except.ok ([], "", []) : Except LuaError (Heap × String × List Nat)) ≠
      .error .ExpectedArgument := by
  refine ⟨by decide, by decide, by decide⟩

/-- C10: when the dispatch loop's condition `pc < instructions.len()`
fails — execution has moved past the end of the instruction vector
without a RETURN or TAILCALL having returned — `execute` leaves the loop
and returns `Ok(vec![])`: no error is raised and the result vector is
empty. -/
theorem C10_end_of_code_returns_empty_ok (ctx : ProgCtx) (fuel : Nat) (s : ExecState)
    (hend : (ctx.instructions.length : Int) ≤ s.pc) :
    execLoop ctx fuel s = .ok [] := by
  rw [execLoop.eq_def]
  simp only [hend, ite_true]

/-- C10, witnessed on the empty program at `pc = 0`. -/
theorem C10_end_of_code_returns_empty_ok_witness :
    execLoop noProg 0
      { heap := [], funcs := [], out := "", pc := 0, stack := [],
        stackTop := 0, upvalues := [], vararg := [] } = .ok [] :=
  C10_end_of_code_returns_empty_ok noProg 0 _ (by decide)
